import Mathlib

/-!
Verification of the LiveLedger server's accrual and synchronization engine.

The definitions below are shallow embeddings of the TypeScript service code:

* `BalanceSimulationService` (balanceSimulation.service.ts): the BigInt
  accrual / claimable calculator, embedded over ℤ.  The service returns
  decimal strings via BigInt.toString; since that map is injective on
  integers, the embedding works directly with the integer values
  (the string "0" corresponds to the integer 0).
* `WithdrawalManagementService` (withdrawalManagement.service.ts): the daily
  withdrawal limiter backed by a JS Map from lower-cased recipient address to
  a count/lastReset record.  The JS Map is embedded as an association list
  with update-in-place-or-append semantics, matching Map.get/Map.set.  The
  day key (the YYYY-MM-DD part of new Date().toISOString()) is passed in as
  an explicit parameter, since the service reads the clock ambiently.
* `StreamingCalculationService` (streaming-calculation.service.ts): its
  floating-point accrual path is modelled with an explicit binary64
  rounding function on integer values, and its stream-relative withdrawal
  day index with integer floor division.
* `BlockchainSyncService` (blockchain-sync.service.ts): the Withdraw event
  handler as a pure transformer of a small ledger-store record, and the
  reconciliation comparison of syncStreamWithBlockchain.  Token amounts that
  the source carries as 6-decimal strings are embedded as integer counts of
  micro-tokens (the smallest representable denomination at 6 decimals).
* `RealTimeWorkerService` (mockBlockchain.service.ts): the per-stream body
  of performPeriodicUpdate, as a function from a stream and the current
  time to the effects produced for that stream on one tick.
-/

namespace LiveLedger

/-- Stream status enum from the Prisma schema / stream.types. -/
inductive StreamStatus where
  | PENDING
  | ACTIVE
  | PAUSED
  | STOPPED
  | COMPLETED
deriving DecidableEq

/-- The fields of a stored stream that the balance-simulation calculator
reads.  Times are in seconds (the service floors Date millisecond values to
seconds before computing); flowRate, withdrawnAmount and totalAmount are the
integer values of the stored BigInt decimal strings. -/
structure StoredStream where
  status : StreamStatus
  flowRate : ℤ
  withdrawnAmount : ℤ
  totalAmount : ℤ
  startTime : ℤ
  endTime : Option ℤ
deriving DecidableEq

/-- The elapsed-seconds expression shared verbatim by
calculateClaimableAmount and calculateTotalEarned:
endTime ? Math.min(now - startTime, endTime - startTime) : now - startTime.
endTime here is the number-or-null produced from the stored Date, so the
JS truthiness test also takes the else branch for the number 0 (an
endTime at the epoch second), which the embedding reproduces. -/
def elapsedSeconds (s : StoredStream) (now : ℤ) : ℤ :=
  match s.endTime with
  | some e =>
    if e = 0 then now - s.startTime
    else min (now - s.startTime) (e - s.startTime)
  | none => now - s.startTime

/-- BalanceSimulationService.calculateClaimableAmount, with the ambient
clock read Date.now() passed as the parameter now (seconds).  The source
returns claimable.toString() when claimable > 0 and the string "0"
otherwise; the embedding returns the corresponding integer. -/
def calculateClaimableAmount (s : StoredStream) (now : ℤ) : ℤ :=
  if s.status ≠ StreamStatus.ACTIVE then 0
  else if now < s.startTime then 0
  else
    let totalAccrued := s.flowRate * elapsedSeconds s now
    let claimable := totalAccrued - s.withdrawnAmount
    if claimable > 0 then claimable else 0

/-- BalanceSimulationService.calculateTotalEarned, clock passed as now. -/
def calculateTotalEarned (s : StoredStream) (now : ℤ) : ℤ :=
  if s.status ≠ StreamStatus.ACTIVE then s.withdrawnAmount
  else if now < s.startTime then s.withdrawnAmount
  else
    let totalAccrued := s.flowRate * elapsedSeconds s now
    totalAccrued + s.withdrawnAmount

/-- Lower-casing of an address string, as recipientAddress.toLowerCase() in
the service (identical to JS on the ASCII hex addresses the system uses). -/
def lowerStr (s : String) : String :=
  ⟨s.data.map Char.toLower⟩

/-- One value of the dailyWithdrawals JS Map: a withdrawal count together
with the day key at which it was last reset. -/
structure WEntry where
  count : ℕ
  lastReset : String
deriving DecidableEq

/-- The dailyWithdrawals store of WithdrawalManagementService: a JS Map from
lower-cased recipient address to a WEntry, embedded as an association list
in insertion order. -/
abbrev DailyMap := List (String × WEntry)

/-- JS Map.get: the binding of k, if present. -/
def mapGet : DailyMap → String → Option WEntry
  | [], _ => none
  | (k₁, v₁) :: rest, k => if k₁ == k then some v₁ else mapGet rest k

/-- JS Map.set: replace the binding of k in place, or append it. -/
def mapSet (m : DailyMap) (k : String) (v : WEntry) : DailyMap :=
  match m with
  | [] => [(k, v)]
  | (k₁, v₁) :: rest =>
    if k₁ == k then (k, v) :: rest else (k₁, v₁) :: mapSet rest k v

/-- WithdrawalManagementService.canWithdraw.  The day key today is the
YYYY-MM-DD part of new Date().toISOString(), read ambiently in the source
and passed explicitly here. -/
def canWithdraw (m : DailyMap) (recipientAddress : String) (today : String)
    (maxWithdrawalsPerDay : ℕ) : Bool :=
  match mapGet m (lowerStr recipientAddress) with
  | none => true
  | some userData =>
    if userData.lastReset ≠ today then true
    else userData.count < maxWithdrawalsPerDay

/-- WithdrawalManagementService.recordWithdrawal: create a fresh count of 1
when there is no entry or the stored day key has rolled over, otherwise
increment. -/
def recordWithdrawal (m : DailyMap) (recipientAddress : String)
    (today : String) : DailyMap :=
  let k := lowerStr recipientAddress
  match mapGet m k with
  | none => mapSet m k ⟨1, today⟩
  | some userData =>
    if userData.lastReset ≠ today then mapSet m k ⟨1, today⟩
    else mapSet m k ⟨userData.count + 1, today⟩

/-- Return value of WithdrawalManagementService.getWithdrawalLimitInfo. -/
structure WithdrawalLimit where
  recipientAddress : String
  withdrawalsToday : ℕ
  lastWithdrawalDate : String
  maxWithdrawalsPerDay : ℕ
  nextWithdrawalAvailable : Bool
deriving DecidableEq

/-- WithdrawalManagementService.getWithdrawalLimitInfo. -/
def getWithdrawalLimitInfo (m : DailyMap) (recipientAddress : String)
    (today : String) (maxWithdrawalsPerDay : ℕ) : WithdrawalLimit :=
  let userData := mapGet m (lowerStr recipientAddress)
  let withdrawalsToday :=
    match userData with
    | some u => if u.lastReset = today then u.count else 0
    | none => 0
  let lastWithdrawalDate :=
    match userData with
    | some u => if u.lastReset = today then today else u.lastReset
    | none => today
  { recipientAddress := lowerStr recipientAddress
    withdrawalsToday := withdrawalsToday
    lastWithdrawalDate := lastWithdrawalDate
    maxWithdrawalsPerDay := maxWithdrawalsPerDay
    nextWithdrawalAvailable := withdrawalsToday < maxWithdrawalsPerDay }

/-- The stream-relative day index of
StreamingCalculationService.calculateWithdrawalLimits:
Math.floor((now - startTime) / (24 * 60 * 60 * 1000)) with both times in
milliseconds.  Math.floor of the real quotient is floor division. -/
def dayIndex (nowMs startMs : ℤ) : ℤ :=
  (nowMs - startMs).fdiv (24 * 60 * 60 * 1000)

/-- The UTC calendar-day bucket of WithdrawalManagementService.getTodayKey:
the YYYY-MM-DD part of new Date(nowMs).toISOString() changes exactly when
the UTC day number floor(nowMs / 86400000) changes, and determines it, so
the day key is embedded as that day number. -/
def utcDayKey (nowMs : ℤ) : ℤ :=
  nowMs.fdiv 86400000

/-- Number of binary digits of n, with structural fuel (fuel 200 is exact
for every value below 2 ^ 200, far above anything a JS number holds). -/
def bitLenAux : ℕ → ℕ → ℕ
  | 0, _ => 0
  | fuel + 1, n => if n = 0 then 0 else bitLenAux fuel (n / 2) + 1

/-- Number of binary digits of n. -/
def bitLen (n : ℕ) : ℕ :=
  bitLenAux 200 n

/-- Round n to the nearest multiple of ulp, half to even. -/
def roundAt (ulp n : ℕ) : ℕ :=
  if 2 * (n % ulp) < ulp then n / ulp * ulp
  else if 2 * (n % ulp) > ulp then (n / ulp + 1) * ulp
  else if n / ulp % 2 = 0 then n / ulp * ulp
  else (n / ulp + 1) * ulp

/-- Rounding of a natural number to the nearest IEEE-754 binary64 value
(round half to even on a 53-bit significand).  This is the value JS
produces for parseFloat of the decimal numeral of n, and for any arithmetic
result whose exact value is n, for all n below the binary64 overflow
threshold. -/
def roundDouble (n : ℕ) : ℕ :=
  if n < 2 ^ 53 then n
  else roundAt (2 ^ (bitLen n - 53)) n

/-- The accrual expression of
StreamingCalculationService.calculateStreamBalance on a nonnegative integer
flowRate string and integer elapsed seconds:
parseFloat(stream.flowRate) * elapsedTime in JS doubles, i.e. the rounded
product of the rounded rate (elapsed itself, a difference of second
counts, is far below 2 ^ 53 and hence exact). -/
def jsTotalStreamed (rate elapsed : ℕ) : ℕ :=
  roundDouble (roundDouble rate * elapsed)

/-- The elapsed-time computation of
StreamingCalculationService.calculateStreamBalance (reached only when
now ≥ startTime): if (endTime && now >= endTime) then endTime - startTime
else now - startTime, with the JS truthiness of the number-or-null
endTime taking the else branch for the number 0. -/
def elapsedTime011 (startTime : ℤ) (endTime : Option ℤ) (now : ℤ) : ℤ :=
  match endTime with
  | some e =>
    if e = 0 then now - startTime
    else if now ≥ e then e - startTime
    else now - startTime
  | none => now - startTime

/-- The stored stream fields that
StreamingCalculationService.syncStreamWithBlockchain reads and writes.
Token amounts are integer counts of micro-tokens (6 decimals), the unit
of ethers.utils.formatUnits(x, 6) strings. -/
structure DbStream where
  id : ℕ
  withdrawnAmount : ℤ
deriving DecidableEq

/-- Comparison tolerance of syncStreamWithBlockchain: 0.000001 tokens,
i.e. one micro-token. -/
def syncTolerance : ℤ := 1

/-- StreamingCalculationService.syncStreamWithBlockchain as a pure
transformer.  Inputs: the stored stream, the on-chain withdrawn and
claimable values read from the contract, and the off-chain claimable
amount computed by calculateStreamBalance; all amounts in micro-tokens.
Output: the returned isInSync flag, the stored stream after the call, and
the list of transactions the call sends to the chain.  The service holds
only a JsonRpcProvider (no signer) and calls the two view functions
getStream and getClaimable, so the model constructs no chain writes. -/
def syncStreamWithBlockchain (s : DbStream) (onChainWithdrawn : ℤ)
    (onChainClaimable : ℤ) (offChainClaimable : ℤ) :
    Bool × DbStream × List String :=
  let isInSync := |onChainClaimable - offChainClaimable| ≤ syncTolerance
  if isInSync then
    (true, s, [])
  else
    (false, { s with withdrawnAmount := onChainWithdrawn }, [])

/-- The stream fields the tick worker's per-stream step reads.  endTime is
in milliseconds (the source compares Date objects). -/
structure TickStream where
  payerId : String
  recipientId : String
  status : StreamStatus
  escrowConfirmed : Bool
  endTime : Option ℤ
deriving DecidableEq

/-- The effects RealTimeWorkerService.performPeriodicUpdate produces for
one stream on one tick: the status stored for the stream afterwards, the
users sent a STREAM_COMPLETED notification, the users sent a real-time
balance broadcast, and the users whose Balance row is upserted. -/
structure TickEffects where
  newStatus : StreamStatus
  completionNotices : List String
  balanceBroadcasts : List String
  balanceUpserts : List String
deriving DecidableEq

/-- The body of the per-stream loop of
RealTimeWorkerService.performPeriodicUpdate, for a stream drawn from the
ACTIVE and escrow-confirmed query whose calculation is present: when the
stream has an endTime, now is strictly past it and the status is ACTIVE,
completeExpiredStream runs (status COMPLETED, completion notifications to
payer and recipient) and the loop continues past the broadcast and the
balance upsert; otherwise the update is broadcast to payer and recipient
and the recipient's Balance row is upserted. -/
def tickStreamStep (s : TickStream) (nowMs : ℤ) : TickEffects :=
  let expired :=
    match s.endTime with
    | some e => nowMs > e && s.status == StreamStatus.ACTIVE
    | none => false
  if expired then
    { newStatus := StreamStatus.COMPLETED
      completionNotices := [s.payerId, s.recipientId]
      balanceBroadcasts := []
      balanceUpserts := [] }
  else
    { newStatus := s.status
      completionNotices := []
      balanceBroadcasts := [s.payerId, s.recipientId]
      balanceUpserts := [s.recipientId] }

/-- A stream row as the BlockchainSyncService event handlers see it:
recipient wallet address (stored lower-cased), status, withdrawn amount in
micro-tokens. -/
structure SyncStream where
  id : ℕ
  recipientAddress : String
  status : StreamStatus
  withdrawnAmount : ℤ
deriving DecidableEq

/-- A transaction row created by the event handlers: type tag, amount in
micro-tokens, transaction hash of the chain event. -/
structure TxRecord where
  streamId : ℕ
  txType : String
  amount : ℤ
  txHash : String
deriving DecidableEq

/-- The ledger-store tables BlockchainSyncService.handleWithdrawal touches.
users holds the lower-cased wallet addresses with registered User rows;
streams is kept in the createdAt-descending order in which the findFirst
query returns rows, so the first matching element is the row the handler
picks.  The Balance table update is omitted: the claim is settled on
withdrawnAmount and the transaction records alone. -/
structure LedgerStore where
  users : List String
  streams : List SyncStream
  txs : List TxRecord
deriving DecidableEq

/-- Replace the stream with the given id by upd of it. -/
def updateStream (streams : List SyncStream) (id : ℕ)
    (upd : SyncStream → SyncStream) : List SyncStream :=
  streams.map (fun s => if s.id = id then upd s else s)

/-- BlockchainSyncService.handleWithdrawal as a pure transformer of the
ledger store.  Event payload: recipient address, amount (micro-tokens) and
the transaction hash of the event.  The handler looks up the recipient
user, picks the most recent ACTIVE stream of that recipient, adds the
event amount to its withdrawnAmount and appends a CONFIRMED WITHDRAWAL
transaction record; it performs no duplicate check on the transaction
hash or log index. -/
def handleWithdrawal (st : LedgerStore) (recipient : String) (amount : ℤ)
    (txHash : String) : LedgerStore :=
  if st.users.contains (lowerStr recipient) then
    match st.streams.find? (fun s =>
        s.recipientAddress == lowerStr recipient
          && s.status == StreamStatus.ACTIVE) with
    | none => st
    | some stream =>
      { st with
        streams := updateStream st.streams stream.id
          (fun s => { s with withdrawnAmount := s.withdrawnAmount + amount })
        txs := st.txs ++ [⟨stream.id, "WITHDRAWAL", amount, txHash⟩] }
  else st

/-! Helper lemmas shared across the claim theorems. -/

/-- elapsedSeconds is monotone in the clock. -/
theorem elapsedSeconds_mono (s : StoredStream) {t₁ t₂ : ℤ} (h : t₁ ≤ t₂) :
    elapsedSeconds s t₁ ≤ elapsedSeconds s t₂ := by
  unfold elapsedSeconds
  cases s.endTime with
  | none => show t₁ - s.startTime ≤ t₂ - s.startTime; omega
  | some e =>
    show (if e = 0 then t₁ - s.startTime else min (t₁ - s.startTime) (e - s.startTime))
      ≤ (if e = 0 then t₂ - s.startTime else min (t₂ - s.startTime) (e - s.startTime))
    by_cases h0 : e = 0
    · rw [if_pos h0, if_pos h0]
      omega
    · rw [if_neg h0, if_neg h0]
      exact min_le_min (by omega) le_rfl

/-- With a non-epoch endTime present, elapsedSeconds never exceeds the
stream duration. -/
theorem elapsedSeconds_le_duration (s : StoredStream) (now e : ℤ)
    (he : s.endTime = some e) (he0 : e ≠ 0) :
    elapsedSeconds s now ≤ e - s.startTime := by
  unfold elapsedSeconds
  rw [he]
  show (if e = 0 then now - s.startTime else min (now - s.startTime) (e - s.startTime))
    ≤ e - s.startTime
  rw [if_neg he0]
  exact min_le_right _ _

/-- The positive-part conditional of the claimable computation is
monotone. -/
theorem posPart_mono {x y : ℤ} (h : x ≤ y) :
    (if x > 0 then x else 0) ≤ (if y > 0 then y else 0) := by
  split <;> split <;> omega

/-- A stream that is not ACTIVE yields claimable 0. -/
theorem calculateClaimableAmount_inactive (s : StoredStream) (now : ℤ)
    (hs : s.status ≠ StreamStatus.ACTIVE) :
    calculateClaimableAmount s now = 0 := by
  unfold calculateClaimableAmount
  rw [if_pos hs]

/-- A stream that is not ACTIVE yields totalEarned = withdrawnAmount. -/
theorem calculateTotalEarned_inactive (s : StoredStream) (now : ℤ)
    (hs : s.status ≠ StreamStatus.ACTIVE) :
    calculateTotalEarned s now = s.withdrawnAmount := by
  unfold calculateTotalEarned
  rw [if_pos hs]

/-- The started ACTIVE branch of calculateTotalEarned. -/
theorem calculateTotalEarned_active (s : StoredStream) (now : ℤ)
    (hs : s.status = StreamStatus.ACTIVE) (hn : ¬ now < s.startTime) :
    calculateTotalEarned s now
      = s.flowRate * elapsedSeconds s now + s.withdrawnAmount := by
  unfold calculateTotalEarned
  rw [if_neg (by simp [hs]), if_neg hn]

/-- An ACTIVE stream that has not started yet yields claimable 0. -/
theorem calculateClaimableAmount_before (s : StoredStream) (now : ℤ)
    (hs : s.status = StreamStatus.ACTIVE) (hn : now < s.startTime) :
    calculateClaimableAmount s now = 0 := by
  unfold calculateClaimableAmount
  rw [if_neg (by simp [hs]), if_pos hn]

/-- The started ACTIVE branch of calculateClaimableAmount. -/
theorem calculateClaimableAmount_active (s : StoredStream) (now : ℤ)
    (hs : s.status = StreamStatus.ACTIVE) (hn : ¬ now < s.startTime) :
    calculateClaimableAmount s now
      = if s.flowRate * elapsedSeconds s now - s.withdrawnAmount > 0 then
          s.flowRate * elapsedSeconds s now - s.withdrawnAmount
        else 0 := by
  unfold calculateClaimableAmount
  rw [if_neg (by simp [hs]), if_neg hn]

/-- elapsedTime011 is monotone in the clock. -/
theorem elapsedTime011_mono (startTime : ℤ) (endTime : Option ℤ) {t₁ t₂ : ℤ}
    (h : t₁ ≤ t₂) :
    elapsedTime011 startTime endTime t₁ ≤ elapsedTime011 startTime endTime t₂ := by
  unfold elapsedTime011
  cases endTime with
  | none => show t₁ - startTime ≤ t₂ - startTime; omega
  | some e =>
    show (if e = 0 then t₁ - startTime else if t₁ ≥ e then e - startTime else t₁ - startTime)
      ≤ (if e = 0 then t₂ - startTime else if t₂ ≥ e then e - startTime else t₂ - startTime)
    split_ifs <;> omega

/-- bitLenAux of 0 is 0 for any fuel. -/
theorem bitLenAux_zero (f : ℕ) : bitLenAux f 0 = 0 := by
  cases f <;> simp [bitLenAux]

/-- With enough fuel, bitLenAux brackets its argument between consecutive
powers of two. -/
theorem bitLenAux_bounds : ∀ f n, n < 2 ^ f → n ≠ 0 →
    1 ≤ bitLenAux f n ∧ 2 ^ (bitLenAux f n - 1) ≤ n ∧ n < 2 ^ bitLenAux f n := by
  intro f
  induction f with
  | zero =>
    intro n h hn
    norm_num at h
    omega
  | succ f ih =>
    intro n h hn
    have hstep : bitLenAux (f + 1) n = bitLenAux f (n / 2) + 1 := by
      simp [bitLenAux, hn]
    by_cases h2 : n / 2 = 0
    · have hn1 : n = 1 := by omega
      subst hn1
      rw [hstep, h2, bitLenAux_zero]
      norm_num
    · have hpow : (2:ℕ) ^ (f + 1) = 2 * 2 ^ f := by ring
      have hlt : n / 2 < 2 ^ f := by omega
      obtain ⟨ih1, ih2, ih3⟩ := ih (n / 2) hlt h2
      rw [hstep]
      refine ⟨by omega, ?_, ?_⟩
      · have hL : bitLenAux f (n / 2) - 1 + 1 = bitLenAux f (n / 2) := by omega
        have hsplit : (2:ℕ) ^ (bitLenAux f (n / 2) + 1 - 1)
            = 2 * 2 ^ (bitLenAux f (n / 2) - 1) := by
          have h1 : bitLenAux f (n / 2) + 1 - 1 = bitLenAux f (n / 2) - 1 + 1 := by omega
          rw [h1, pow_succ]
          ring
        rw [hsplit]
        omega
      · have hsplit : (2:ℕ) ^ (bitLenAux f (n / 2) + 1)
            = 2 * 2 ^ bitLenAux f (n / 2) := by ring
        rw [hsplit]
        omega

/-- bitLen brackets any nonzero value below the fuel bound between
consecutive powers of two. -/
theorem bitLen_bounds (n : ℕ) (hn : n ≠ 0) (hb : n < 2 ^ 200) :
    1 ≤ bitLen n ∧ 2 ^ (bitLen n - 1) ≤ n ∧ n < 2 ^ bitLen n :=
  bitLenAux_bounds 200 n hb hn

/-- roundAt never rounds below the enclosing multiple of ulp. -/
theorem roundAt_lower (ulp n : ℕ) : n / ulp * ulp ≤ roundAt ulp n := by
  unfold roundAt
  have e : (n / ulp + 1) * ulp = n / ulp * ulp + ulp := by ring
  split_ifs <;> omega

/-- roundAt never rounds above the next multiple of ulp. -/
theorem roundAt_upper (ulp n : ℕ) : roundAt ulp n ≤ (n / ulp + 1) * ulp := by
  unfold roundAt
  have e : (n / ulp + 1) * ulp = n / ulp * ulp + ulp := by ring
  split_ifs <;> omega

/-- Round-half-to-even at a fixed ulp is monotone. -/
theorem roundAt_mono (ulp a b : ℕ) (hu : 0 < ulp) (h : a ≤ b) :
    roundAt ulp a ≤ roundAt ulp b := by
  have hq : a / ulp ≤ b / ulp := Nat.div_le_div_right h
  rcases eq_or_lt_of_le hq with heq | hlt
  · have hda := Nat.div_add_mod a ulp
    have hdb := Nat.div_add_mod b ulp
    rw [heq] at hda
    have hr : a % ulp ≤ b % ulp := by omega
    unfold roundAt
    rw [heq]
    have e : (b / ulp + 1) * ulp = b / ulp * ulp + ulp := by ring
    split_ifs <;> omega
  · calc roundAt ulp a ≤ (a / ulp + 1) * ulp := roundAt_upper ulp a
      _ ≤ b / ulp * ulp := Nat.mul_le_mul_right ulp (by omega)
      _ ≤ roundAt ulp b := roundAt_lower ulp b

/-- Rounding to the nearest binary64 value is monotone (below the fuel
bound of bitLen, far beyond any JS number). -/
theorem roundDouble_mono (a b : ℕ) (h : a ≤ b) (hb : b < 2 ^ 200) :
    roundDouble a ≤ roundDouble b := by
  unfold roundDouble
  by_cases hb53 : b < 2 ^ 53
  · rw [if_pos (by omega), if_pos hb53]
    exact h
  · rw [if_neg hb53]
    have h53pos : (0:ℕ) < 2 ^ 53 := by positivity
    have hbne : b ≠ 0 := by omega
    obtain ⟨hL1, hL2, hL3⟩ := bitLen_bounds b hbne hb
    have hL54 : 54 ≤ bitLen b := by
      by_contra hc
      push_neg at hc
      have : (2:ℕ) ^ bitLen b ≤ 2 ^ 53 := Nat.pow_le_pow_right (by norm_num) (by omega)
      omega
    set L := bitLen b with hLdef
    have hulp : (0:ℕ) < 2 ^ (L - 53) := by positivity
    have hq52 : 2 ^ 52 ≤ b / 2 ^ (L - 53) := by
      rw [Nat.le_div_iff_mul_le hulp]
      have hpow : (2:ℕ) ^ 52 * 2 ^ (L - 53) = 2 ^ (L - 1) := by
        rw [← pow_add]
        congr 1
        omega
      rw [hpow]
      exact hL2
    have hlb : 2 ^ (L - 1) ≤ roundAt (2 ^ (L - 53)) b := by
      calc (2:ℕ) ^ (L - 1) = 2 ^ 52 * 2 ^ (L - 53) := by
            rw [← pow_add]; congr 1; omega
        _ ≤ b / 2 ^ (L - 53) * 2 ^ (L - 53) := Nat.mul_le_mul_right _ hq52
        _ ≤ roundAt (2 ^ (L - 53)) b := roundAt_lower _ _
    by_cases ha53 : a < 2 ^ 53
    · rw [if_pos ha53]
      have : (2:ℕ) ^ 53 ≤ 2 ^ (L - 1) := Nat.pow_le_pow_right (by norm_num) (by omega)
      omega
    · rw [if_neg ha53]
      have hane : a ≠ 0 := by omega
      have haB : a < 2 ^ 200 := by omega
      obtain ⟨hA1, hA2, hA3⟩ := bitLen_bounds a hane haB
      have hA54 : 54 ≤ bitLen a := by
        by_contra hc
        push_neg at hc
        have : (2:ℕ) ^ bitLen a ≤ 2 ^ 53 := Nat.pow_le_pow_right (by norm_num) (by omega)
        omega
      set K := bitLen a with hKdef
      have hKL : K ≤ L := by
        by_contra hc
        push_neg at hc
        have : (2:ℕ) ^ L ≤ 2 ^ (K - 1) := Nat.pow_le_pow_right (by norm_num) (by omega)
        omega
      rcases eq_or_lt_of_le hKL with heq | hlt
      · rw [heq]
        exact roundAt_mono _ a b hulp h
      · have hub : roundAt (2 ^ (K - 53)) a ≤ 2 ^ K := by
          have hud : (0:ℕ) < 2 ^ (K - 53) := by positivity
          have hdivlt : a / 2 ^ (K - 53) < 2 ^ 53 := by
            rw [Nat.div_lt_iff_lt_mul hud]
            calc a < 2 ^ K := hA3
              _ = 2 ^ 53 * 2 ^ (K - 53) := by rw [← pow_add]; congr 1; omega
          calc roundAt (2 ^ (K - 53)) a
              ≤ (a / 2 ^ (K - 53) + 1) * 2 ^ (K - 53) := roundAt_upper _ _
            _ ≤ 2 ^ 53 * 2 ^ (K - 53) := Nat.mul_le_mul_right _ (by omega)
            _ = 2 ^ K := by rw [← pow_add]; congr 1; omega
        have h2K : (2:ℕ) ^ K ≤ 2 ^ (L - 1) := Nat.pow_le_pow_right (by norm_num) (by omega)
        omega

/-- The simulated JS accrual is monotone in the elapsed time, for
products within the bitLen fuel bound. -/
theorem jsTotalStreamed_mono (rate e₁ e₂ : ℕ) (h : e₁ ≤ e₂)
    (hb : roundDouble rate * e₂ < 2 ^ 200) :
    jsTotalStreamed rate e₁ ≤ jsTotalStreamed rate e₂ := by
  unfold jsTotalStreamed
  exact roundDouble_mono _ _ (Nat.mul_le_mul_left _ h) hb

/-- Looking up the key just set returns the value just set. -/
theorem mapGet_mapSet_self (m : DailyMap) (k : String) (v : WEntry) :
    mapGet (mapSet m k v) k = some v := by
  induction m with
  | nil => simp [mapGet, mapSet]
  | cons p rest ih =>
    by_cases h : p.1 == k
    · simp [mapGet, mapSet, h]
    · simp [mapGet, mapSet, h, ih]

/-- The first recordWithdrawal of a day stores a count of 1, whatever was
stored before, provided nothing was recorded under today's key yet. -/
theorem recordWithdrawal_fresh (m : DailyMap) (addr today : String)
    (hinit : ∀ u, mapGet m (lowerStr addr) = some u → u.lastReset ≠ today) :
    recordWithdrawal m addr today = mapSet m (lowerStr addr) ⟨1, today⟩ := by
  unfold recordWithdrawal
  cases hm : mapGet m (lowerStr addr) with
  | none => simp only [hm]
  | some u =>
    simp only [hm]
    rw [if_pos (hinit u hm)]

/-- A recordWithdrawal under a key already reset today increments the
stored count. -/
theorem recordWithdrawal_same_day (m : DailyMap) (addr today : String) (c : ℕ)
    (hg : mapGet m (lowerStr addr) = some ⟨c, today⟩) :
    recordWithdrawal m addr today = mapSet m (lowerStr addr) ⟨c + 1, today⟩ := by
  unfold recordWithdrawal
  simp only [hg]
  simp

/-- A recordWithdrawal under a key whose stored day has rolled over resets
the count to 1 for the new day. -/
theorem recordWithdrawal_rollover (m : DailyMap) (addr today d₂ : String)
    (c : ℕ) (hg : mapGet m (lowerStr addr) = some ⟨c, today⟩)
    (hd : today ≠ d₂) :
    recordWithdrawal m addr d₂ = mapSet m (lowerStr addr) ⟨1, d₂⟩ := by
  unfold recordWithdrawal
  simp only [hg]
  simp [hd]

/-- canWithdraw under a key reset today compares the stored count to the
daily maximum. -/
theorem canWithdraw_at (m : DailyMap) (addr today : String) (c maxPerDay : ℕ)
    (hg : mapGet m (lowerStr addr) = some ⟨c, today⟩) :
    canWithdraw m addr today maxPerDay = decide (c < maxPerDay) := by
  unfold canWithdraw
  simp only [hg]
  simp

/-! Claim theorems. -/

/-- Claim C10: for every stream whose status is not ACTIVE, the
balance-simulation calculator returns a claimable amount of zero and a
total earned equal to the withdrawn amount, regardless of elapsed time. -/
theorem inactive_stream_reports_zero (s : StoredStream) (now : ℤ)
    (h : s.status ≠ StreamStatus.ACTIVE) :
    calculateClaimableAmount s now = 0 ∧
    calculateTotalEarned s now = s.withdrawnAmount :=
  ⟨calculateClaimableAmount_inactive s now h, calculateTotalEarned_inactive s now h⟩

/-- Witness for C10: a COMPLETED stream with positive remaining funds
still reports zero claimable and totalEarned equal to withdrawnAmount. -/
theorem inactive_stream_reports_zero_witness :
    calculateClaimableAmount ⟨StreamStatus.COMPLETED, 1, 3, 10, 0, some 10⟩ 100 = 0 ∧
    calculateTotalEarned ⟨StreamStatus.COMPLETED, 1, 3, 10, 0, some 10⟩ 100 = 3 :=
  inactive_stream_reports_zero ⟨StreamStatus.COMPLETED, 1, 3, 10, 0, some 10⟩ 100 (by decide)

/-- Claim C6: for a fixed stream with nonnegative rate and times
startTime ≤ t₁ ≤ t₂, both the total earned and the claimable amount
computed by the balance-simulation calculator at t₂ are at least the
values at t₁ (accrual is monotonically non-decreasing in time); the
streaming-calculation service's accrual path is monotone as well: its
elapsed time is non-decreasing in the clock, and its double-precision
totalStreamed is non-decreasing in the elapsed time. -/
theorem accrual_monotone (s : StoredStream) (t₁ t₂ : ℤ)
    (hr : 0 ≤ s.flowRate) (h₁ : s.startTime ≤ t₁) (h₁₂ : t₁ ≤ t₂) :
    (calculateTotalEarned s t₁ ≤ calculateTotalEarned s t₂ ∧
     calculateClaimableAmount s t₁ ≤ calculateClaimableAmount s t₂ ∧
     elapsedTime011 s.startTime s.endTime t₁ ≤ elapsedTime011 s.startTime s.endTime t₂) ∧
    (∀ rate e₁ e₂ : ℕ, e₁ ≤ e₂ → roundDouble rate * e₂ < 2 ^ 200 →
      jsTotalStreamed rate e₁ ≤ jsTotalStreamed rate e₂) := by
  refine ⟨?_, fun rate e₁ e₂ he hbound => jsTotalStreamed_mono rate e₁ e₂ he hbound⟩
  have hmul : s.flowRate * elapsedSeconds s t₁ ≤ s.flowRate * elapsedSeconds s t₂ :=
    mul_le_mul_of_nonneg_left (elapsedSeconds_mono s h₁₂) hr
  refine ⟨?_, ?_, elapsedTime011_mono s.startTime s.endTime h₁₂⟩ <;>
    by_cases hs : s.status = StreamStatus.ACTIVE
  · have hn₁ : ¬ t₁ < s.startTime := by omega
    have hn₂ : ¬ t₂ < s.startTime := by omega
    rw [calculateTotalEarned_active s t₁ hs hn₁, calculateTotalEarned_active s t₂ hs hn₂]
    linarith
  · rw [calculateTotalEarned_inactive s t₁ hs, calculateTotalEarned_inactive s t₂ hs]
  · have hn₁ : ¬ t₁ < s.startTime := by omega
    have hn₂ : ¬ t₂ < s.startTime := by omega
    rw [calculateClaimableAmount_active s t₁ hs hn₁, calculateClaimableAmount_active s t₂ hs hn₂]
    exact posPart_mono (by linarith)
  · rw [calculateClaimableAmount_inactive s t₁ hs, calculateClaimableAmount_inactive s t₂ hs]

/-- Witness for C6: an ACTIVE stream with rate 2 accrues no less at t = 5
than at t = 3, and the double-precision path at rate 5 accrues no less
over 2 seconds than over 1. -/
theorem accrual_monotone_witness :
    (calculateTotalEarned ⟨StreamStatus.ACTIVE, 2, 1, 100, 0, some 10⟩ 3
      ≤ calculateTotalEarned ⟨StreamStatus.ACTIVE, 2, 1, 100, 0, some 10⟩ 5 ∧
    calculateClaimableAmount ⟨StreamStatus.ACTIVE, 2, 1, 100, 0, some 10⟩ 3
      ≤ calculateClaimableAmount ⟨StreamStatus.ACTIVE, 2, 1, 100, 0, some 10⟩ 5 ∧
    elapsedTime011 0 (some 10) 3 ≤ elapsedTime011 0 (some 10) 5) ∧
    jsTotalStreamed 5 1 ≤ jsTotalStreamed 5 2 := by
  obtain ⟨hpart, hjs⟩ := accrual_monotone ⟨StreamStatus.ACTIVE, 2, 1, 100, 0, some 10⟩ 3 5
    (by decide) (by decide) (by decide)
  exact ⟨hpart, hjs 5 1 2 (by decide) (by decide)⟩

/-- Claim C1 as stated is false: for an ACTIVE stream with no endTime,
rate 1, totalAmount 10 and withdrawnAmount 0, the claimable amount at
t = 100 is 100, so withdrawnAmount + claimable exceeds totalAmount (the
calculator applies no cap at totalAmount - withdrawnAmount). -/
theorem claimable_cap_counterexample :
    ¬ ((0 : ℤ) + calculateClaimableAmount ⟨StreamStatus.ACTIVE, 1, 0, 10, 0, none⟩ 100 ≤ 10) := by
  decide

/-- Claim C1 amended: the claimable amount is nonnegative for every
stream and every time; and withdrawnAmount + claimable ≤ totalAmount
holds when the stream is bounded and funded, i.e. withdrawnAmount ≤
totalAmount, a (non-epoch) endTime is present and ratePerUnitTime times
the duration does not exceed totalAmount — the calculator itself applies
no cap, so the bound fails for streams with no endTime or with rate
times duration above totalAmount. -/
theorem claimable_nonneg_and_capped (s : StoredStream) (now : ℤ) :
    0 ≤ calculateClaimableAmount s now ∧
    (∀ e : ℤ, 0 ≤ s.flowRate → s.withdrawnAmount ≤ s.totalAmount →
      s.endTime = some e → e ≠ 0 →
      s.flowRate * (e - s.startTime) ≤ s.totalAmount →
      s.withdrawnAmount + calculateClaimableAmount s now ≤ s.totalAmount) := by
  constructor
  · by_cases hs : s.status = StreamStatus.ACTIVE
    · by_cases h₂ : now < s.startTime
      · rw [calculateClaimableAmount_before s now hs h₂]
      · rw [calculateClaimableAmount_active s now hs h₂]
        by_cases hpos : s.flowRate * elapsedSeconds s now - s.withdrawnAmount > 0
        · rw [if_pos hpos]
          linarith
        · rw [if_neg hpos]
    · rw [calculateClaimableAmount_inactive s now hs]
  · intro e hr hw he he0 hcap
    have hmul : s.flowRate * elapsedSeconds s now ≤ s.flowRate * (e - s.startTime) :=
      mul_le_mul_of_nonneg_left (elapsedSeconds_le_duration s now e he he0) hr
    by_cases hs : s.status = StreamStatus.ACTIVE
    · by_cases h₂ : now < s.startTime
      · rw [calculateClaimableAmount_before s now hs h₂]
        omega
      · rw [calculateClaimableAmount_active s now hs h₂]
        by_cases hpos : s.flowRate * elapsedSeconds s now - s.withdrawnAmount > 0
        · rw [if_pos hpos]
          linarith
        · rw [if_neg hpos]
          omega
    · rw [calculateClaimableAmount_inactive s now hs]
      omega

/-- Witness for C1 (amended): non-negativity at an unbounded stream with
no endTime, and the cap at a bounded, fully funded ACTIVE stream. -/
theorem claimable_nonneg_and_capped_witness :
    0 ≤ calculateClaimableAmount ⟨StreamStatus.ACTIVE, 1, 0, 10, 0, none⟩ 100 ∧
    0 ≤ calculateClaimableAmount ⟨StreamStatus.ACTIVE, 2, 3, 20, 0, some 10⟩ 7 ∧
    (3 : ℤ) + calculateClaimableAmount ⟨StreamStatus.ACTIVE, 2, 3, 20, 0, some 10⟩ 7 ≤ 20 :=
  ⟨(claimable_nonneg_and_capped ⟨StreamStatus.ACTIVE, 1, 0, 10, 0, none⟩ 100).1,
   (claimable_nonneg_and_capped ⟨StreamStatus.ACTIVE, 2, 3, 20, 0, some 10⟩ 7).1,
   (claimable_nonneg_and_capped ⟨StreamStatus.ACTIVE, 2, 3, 20, 0, some 10⟩ 7).2 10
     (by decide) (by decide) rfl (by decide) (by decide)⟩

/-- Claim C3: for a recipient with maxPerDay = 2 and nothing recorded
under today's key, two recordWithdrawal calls on the same day make
canWithdraw with limit 2 return false, and a recordWithdrawal on a
different (next) calendar day stores a count of 1 for the new day. -/
theorem withdrawal_limit_two_per_day (m : DailyMap) (addr today d₂ : String)
    (hinit : ∀ u, mapGet m (lowerStr addr) = some u → u.lastReset ≠ today)
    (hd : d₂ ≠ today) :
    canWithdraw (recordWithdrawal (recordWithdrawal m addr today) addr today)
      addr today 2 = false ∧
    mapGet (recordWithdrawal
        (recordWithdrawal (recordWithdrawal m addr today) addr today) addr d₂)
      (lowerStr addr) = some ⟨1, d₂⟩ := by
  have h₁ : recordWithdrawal m addr today = mapSet m (lowerStr addr) ⟨1, today⟩ :=
    recordWithdrawal_fresh m addr today hinit
  have hg₁ : mapGet (recordWithdrawal m addr today) (lowerStr addr) = some ⟨1, today⟩ := by
    rw [h₁]; exact mapGet_mapSet_self m (lowerStr addr) ⟨1, today⟩
  have h₂ := recordWithdrawal_same_day (recordWithdrawal m addr today) addr today 1 hg₁
  have hg₂ : mapGet (recordWithdrawal (recordWithdrawal m addr today) addr today)
      (lowerStr addr) = some ⟨2, today⟩ := by
    rw [h₂]; exact mapGet_mapSet_self _ (lowerStr addr) ⟨2, today⟩
  constructor
  · rw [canWithdraw_at _ addr today 2 2 hg₂]
    decide
  · have h₃ := recordWithdrawal_rollover
      (recordWithdrawal (recordWithdrawal m addr today) addr today) addr today d₂ 2 hg₂
      (Ne.symm hd)
    rw [h₃]
    exact mapGet_mapSet_self _ (lowerStr addr) ⟨1, d₂⟩

/-- Witness for C3: starting from an empty store on 2026-10-11, two
records exhaust the limit of 2 and a record on 2026-10-12 stores count 1. -/
theorem withdrawal_limit_two_per_day_witness :
    canWithdraw (recordWithdrawal (recordWithdrawal [] "0xAB" "2026-10-11") "0xAB" "2026-10-11")
      "0xAB" "2026-10-11" 2 = false ∧
    mapGet (recordWithdrawal
        (recordWithdrawal (recordWithdrawal [] "0xAB" "2026-10-11") "0xAB" "2026-10-11")
        "0xAB" "2026-10-12")
      (lowerStr "0xAB") = some ⟨1, "2026-10-12"⟩ :=
  withdrawal_limit_two_per_day [] "0xAB" "2026-10-11" "2026-10-12"
    (fun u h => by simp [mapGet] at h) (by decide)

/-- Claim C9: the withdrawal limiter is case-insensitive in the recipient
address — canWithdraw, recordWithdrawal and getWithdrawalLimitInfo give
identical results for any two addresses with the same lower-casing. -/
theorem limiter_case_insensitive (m : DailyMap) (a b today : String)
    (maxPerDay : ℕ) (h : lowerStr a = lowerStr b) :
    canWithdraw m a today maxPerDay = canWithdraw m b today maxPerDay ∧
    recordWithdrawal m a today = recordWithdrawal m b today ∧
    getWithdrawalLimitInfo m a today maxPerDay
      = getWithdrawalLimitInfo m b today maxPerDay := by
  unfold canWithdraw recordWithdrawal getWithdrawalLimitInfo
  rw [h]
  exact ⟨rfl, rfl, rfl⟩

/-- Witness for C9: a record under 0xAbC counts against the limit checked
under 0xABC, and all three operations agree across the two casings. -/
theorem limiter_case_insensitive_witness :
    canWithdraw [] "0xAbC" "2026-10-11" 2 = canWithdraw [] "0xABC" "2026-10-11" 2 ∧
    recordWithdrawal [] "0xAbC" "2026-10-11" = recordWithdrawal [] "0xABC" "2026-10-11" ∧
    getWithdrawalLimitInfo [] "0xAbC" "2026-10-11" 2
      = getWithdrawalLimitInfo [] "0xABC" "2026-10-11" 2 :=
  limiter_case_insensitive [] "0xAbC" "0xABC" "2026-10-11" 2 (by decide)

/-- Claim C7: the reconciliation check returns in-sync and leaves the
stored stream unchanged when the claimable difference is within the
tolerance; beyond the tolerance it returns out-of-sync and overwrites the
stored withdrawnAmount with the on-chain withdrawn value; and it never
sends a transaction to the chain. -/
theorem sync_reconciliation_spec (s : DbStream) (onW onC offC : ℤ) :
    (|onC - offC| ≤ syncTolerance →
      syncStreamWithBlockchain s onW onC offC = (true, s, [])) ∧
    (syncTolerance < |onC - offC| →
      syncStreamWithBlockchain s onW onC offC
        = (false, { s with withdrawnAmount := onW }, [])) ∧
    (syncStreamWithBlockchain s onW onC offC).2.2 = [] := by
  refine ⟨fun h => ?_, fun h => ?_, ?_⟩
  · simp [syncStreamWithBlockchain, h]
  · simp [syncStreamWithBlockchain, not_le.mpr h]
  · by_cases h : |onC - offC| ≤ syncTolerance <;>
      simp [syncStreamWithBlockchain, h]

/-- Witness for C7: a 0 difference is in-sync and writes nothing; a
7-micro-token difference is out-of-sync and adopts the on-chain withdrawn
value. -/
theorem sync_reconciliation_spec_witness :
    syncStreamWithBlockchain ⟨1, 5⟩ 7 3 3 = (true, ⟨1, 5⟩, []) ∧
    syncStreamWithBlockchain ⟨1, 5⟩ 7 10 3 = (false, ⟨1, 7⟩, []) :=
  ⟨(sync_reconciliation_spec ⟨1, 5⟩ 7 3 3).1 (by decide),
   (sync_reconciliation_spec ⟨1, 5⟩ 7 10 3).2.1 (by decide)⟩

/-- Claim C8 as stated is false at the boundary: for an ACTIVE
escrow-confirmed stream with endTime 1000 and now = 1000 (so now ≥
endTime), the tick worker does not complete the stream and does emit a
balance broadcast and a Balance upsert, because the source compares with
strict new Date() > stream.endTime. -/
theorem tick_boundary_counterexample :
    (1000 : ℤ) ≥ 1000 ∧
    (tickStreamStep ⟨"p", "r", StreamStatus.ACTIVE, true, some 1000⟩ 1000).newStatus
      ≠ StreamStatus.COMPLETED ∧
    (tickStreamStep ⟨"p", "r", StreamStatus.ACTIVE, true, some 1000⟩ 1000).balanceBroadcasts
      ≠ [] := by
  decide

/-- Claim C8 amended: on each tick, an ACTIVE stream with an endTime
strictly in the past (now > endTime) is set to COMPLETED with completion
notifications to payer and recipient and no balance broadcast or upsert;
a stream with now ≤ endTime instead gets a balance broadcast to payer and
recipient and a recipient Balance upsert. -/
theorem tick_step_spec (s : TickStream) (nowMs e : ℤ)
    (he : s.endTime = some e) (hs : s.status = StreamStatus.ACTIVE) :
    (e < nowMs → tickStreamStep s nowMs
      = ⟨StreamStatus.COMPLETED, [s.payerId, s.recipientId], [], []⟩) ∧
    (nowMs ≤ e → tickStreamStep s nowMs
      = ⟨StreamStatus.ACTIVE, [], [s.payerId, s.recipientId], [s.recipientId]⟩) := by
  constructor <;> intro h
  · simp [tickStreamStep, he, hs, h]
  · rw [← hs]
    simp [tickStreamStep, he, hs, not_lt.mpr h]

/-- Witness for C8 (amended): with endTime 1000, the tick at 2000
completes the stream and the tick at 500 broadcasts a balance update. -/
theorem tick_step_spec_witness :
    tickStreamStep ⟨"p", "r", StreamStatus.ACTIVE, true, some 1000⟩ 2000
      = ⟨StreamStatus.COMPLETED, ["p", "r"], [], []⟩ ∧
    tickStreamStep ⟨"p", "r", StreamStatus.ACTIVE, true, some 1000⟩ 500
      = ⟨StreamStatus.ACTIVE, [], ["p", "r"], ["r"]⟩ :=
  ⟨(tick_step_spec ⟨"p", "r", StreamStatus.ACTIVE, true, some 1000⟩ 2000 1000 rfl rfl).1
      (by decide),
   (tick_step_spec ⟨"p", "r", StreamStatus.ACTIVE, true, some 1000⟩ 500 1000 rfl rfl).2
      (by decide)⟩

/-- Claim C2 is violated by the code: the Withdraw handler performs no
dedup on (transaction hash, log index), so applying the same Withdraw
event (amount 5, hash 0xdead) twice to a store holding one ACTIVE stream
with withdrawnAmount 0 adds the amount twice (withdrawnAmount 10) and
appends two transaction records, while a single application yields
withdrawnAmount 5 and one record. -/
theorem handleWithdrawal_not_idempotent :
    handleWithdrawal
        (handleWithdrawal ⟨["0xaa"], [⟨1, "0xaa", StreamStatus.ACTIVE, 0⟩], []⟩
          "0xAA" 5 "0xdead")
        "0xAA" 5 "0xdead"
      = ⟨["0xaa"], [⟨1, "0xaa", StreamStatus.ACTIVE, 10⟩],
          [⟨1, "WITHDRAWAL", 5, "0xdead"⟩, ⟨1, "WITHDRAWAL", 5, "0xdead"⟩]⟩ ∧
    handleWithdrawal ⟨["0xaa"], [⟨1, "0xaa", StreamStatus.ACTIVE, 0⟩], []⟩
        "0xAA" 5 "0xdead"
      = ⟨["0xaa"], [⟨1, "0xaa", StreamStatus.ACTIVE, 5⟩],
          [⟨1, "WITHDRAWAL", 5, "0xdead"⟩]⟩ := by
  decide

/-- Claim C4 is violated by the code: at the instant nowMs = 8640000000
(UTC day 100), a stream started at epoch and a stream started half a day
later get different withdrawal day indices from
calculateWithdrawalLimits (100 and 99), and the latter differs from the
fixed UTC calendar-day key floor(now / 86400000) used by the limiter
service, so the day key is stream-relative, not consistent across call
sites. -/
theorem dayIndex_depends_on_startTime :
    dayIndex 8640000000 0 = 100 ∧
    dayIndex 8640000000 43200000 = 99 ∧
    utcDayKey 8640000000 = 100 ∧
    dayIndex 8640000000 43200000 ≠ dayIndex 8640000000 0 ∧
    dayIndex 8640000000 43200000 ≠ utcDayKey 8640000000 := by
  decide

/-- Claim C5 is violated by the code: the accrual path of
calculateStreamBalance computes in IEEE-754 doubles, so for the integer
flowRate 9007199254740993 (2^53 + 1) and 1 elapsed second the computed
total streamed is 9007199254740992, not the exact integer product
9007199254740993. -/
theorem jsTotalStreamed_loses_precision :
    jsTotalStreamed 9007199254740993 1 = 9007199254740992 ∧
    9007199254740993 * 1 = 9007199254740993 ∧
    jsTotalStreamed 9007199254740993 1 ≠ 9007199254740993 * 1 := by
  decide

end LiveLedger
